import Mathlib

/-!
Verification development for the eosguide static site: shallow embedding of
the client-side opportunity pipeline (`app.js` variants), the ingestion
script (`scripts/issue_to_json.js`) and the subscribe proxy
(`netlify/functions/buttondown-subscribe.js`).

JavaScript strings are modelled as Lean `String`; the string primitives the
code relies on (`trim`, `toLowerCase`, `includes`, `split`, `parseInt`) are
re-implemented below as structurally recursive functions over `String.data`
so that every definition evaluates inside the kernel.  Calendar arithmetic
uses day numbers counted from the Unix epoch (1970-01-01); the time zone is
modelled as UTC, so a parsed date's local midnight coincides with its UTC
midnight.  `Date.parse` is modelled on the ECMA-262 date-only interchange
format `YYYY-MM-DD` (the only format the dataset stores); engine-specific
extra formats are out of the model's scope.
-/

/-- Whitespace test used by the modelled `String.prototype.trim`. -/
def isWsChar (c : Char) : Bool := c = ' ' || c = '\t' || c = '\n' || c = '\r'

/-- Drop leading whitespace characters from a character list. -/
def dropLeadingWs : List Char → List Char
  | [] => []
  | c :: cs => if isWsChar c then dropLeadingWs cs else c :: cs

/-- Model of JavaScript `String.prototype.trim`: strip whitespace from both ends. -/
def jsTrim (s : String) : String :=
  String.mk ((dropLeadingWs (dropLeadingWs s.data).reverse).reverse)

/-- ASCII lower-casing of one character, as `toLowerCase` acts on the ASCII range. -/
def lowerChar (c : Char) : Char :=
  if 'A' ≤ c && c ≤ 'Z' then Char.ofNat (c.toNat + 32) else c

/-- Model of JavaScript `String.prototype.toLowerCase` (ASCII range). -/
def jsLower (s : String) : String := String.mk (s.data.map lowerChar)

/-- Whether the pattern list is a prefix of the character list. -/
def startsWithList : List Char → List Char → Bool
  | _, [] => true
  | [], _ :: _ => false
  | c :: cs, p :: ps => c = p && startsWithList cs ps

/-- Whether the pattern occurs as a contiguous sublist. -/
def containsList : List Char → List Char → Bool
  | [], p => p.isEmpty
  | c :: cs, p => startsWithList (c :: cs) p || containsList cs p

/-- Model of JavaScript `String.prototype.includes`. -/
def strIncludes (s sub : String) : Bool := containsList s.data sub.data

/-- Split a character list at every occurrence of the separator character,
    as JavaScript `String.prototype.split` does with a one-character separator. -/
def splitOnChar (sep : Char) : List Char → List (List Char)
  | [] => [[]]
  | c :: cs =>
    if c = sep then [] :: splitOnChar sep cs
    else match splitOnChar sep cs with
      | [] => [[c]]
      | p :: ps => (c :: p) :: ps

/-- Numeric value of a digit list read least-significant first. -/
def digitsToNat : List Char → Nat
  | [] => 0
  | c :: cs => c.toNat - 48 + 10 * digitsToNat cs

/-- Numeric value of a decimal digit list read most-significant first. -/
def natOfDigits (l : List Char) : Nat := digitsToNat l.reverse

/-- Leading decimal digits of a character list, or `none` when there are none. -/
def leadingDigits (l : List Char) : Option Nat :=
  let ds := l.takeWhile Char.isDigit
  if ds.isEmpty then none else some (natOfDigits ds)

/-- Model of JavaScript `parseInt(s, 10)`: optional sign after leading
    whitespace, then the longest digit prefix; `none` plays the role of `NaN`. -/
def parseIntJS (s : String) : Option Int :=
  let t := dropLeadingWs s.data
  if t.head? = some '-' then (leadingDigits (t.drop 1)).map (fun n => -(n : Int))
  else if t.head? = some '+' then (leadingDigits (t.drop 1)).map (fun n => (n : Int))
  else (leadingDigits t).map (fun n => (n : Int))

/-- Gregorian leap-year test. -/
def isLeapYear (y : Int) : Bool := (y % 4 = 0 && ¬(y % 100 = 0)) || y % 400 = 0

/-- Number of days in a month of a given year (month is 1-based). -/
def daysInMonth (y m : Int) : Int :=
  if m = 2 then (if isLeapYear y then 29 else 28)
  else if m = 4 || m = 6 || m = 9 || m = 11 then 30 else 31

/-- Day number of a civil date counted from 1970-01-01, for a 1-based month
    within 1..12; the day component may lie outside the month and is carried
    as an offset, matching ECMA-262 `MakeDay`. -/
def daysFromCivil (y m d : Int) : Int :=
  let y1 := if m ≤ 2 then y - 1 else y
  let era := Int.fdiv y1 400
  let yoe := y1 - era * 400
  let mp := if m > 2 then m - 3 else m + 9
  let doy := Int.fdiv (153 * mp + 2) 5 + (d - 1)
  let doe := yoe * 365 + Int.fdiv yoe 4 - Int.fdiv yoe 100 + doy
  era * 146097 + doe - 719468

/-- Model of the ECMA-262 `Date(year, month-1, day)` constructor used by the
    `M/D/Y` fallback in `calculateDaysLeft`: two-digit years map to 1900+y,
    and an out-of-range month or day is normalised by carrying. -/
def jsMakeDay (year month day : Int) : Int :=
  let y := if 0 ≤ year ∧ year ≤ 99 then year + 1900 else year
  let ym := y * 12 + (month - 1)
  let yn := Int.fdiv ym 12
  let mn := ym - yn * 12 + 1
  daysFromCivil yn mn day

/-- Model of `Date.parse` restricted to the ECMA-262 date-only format
    `YYYY-MM-DD` with a valid calendar date; anything else is `none` (`NaN`). -/
def parseISODate (s : String) : Option (Int × Int × Int) :=
  match splitOnChar '-' s.data with
  | [ys, ms, ds] =>
    if ys.length = 4 ∧ ms.length = 2 ∧ ds.length = 2
        ∧ ys.all Char.isDigit ∧ ms.all Char.isDigit ∧ ds.all Char.isDigit then
      let y : Int := (natOfDigits ys : Nat)
      let m : Int := (natOfDigits ms : Nat)
      let d : Int := (natOfDigits ds : Nat)
      if 1 ≤ m ∧ m ≤ 12 ∧ 1 ≤ d ∧ d ≤ daysInMonth y m then some (y, m, d) else none
    else none
  | _ => none

/-- Sentinel deadline tokens that `calculateDaysLeft` matches exactly
    (after lower-casing). -/
def specialDeadlineTokens : List String := ["ongoing", "none", "n/a", "na"]

/-- The `M/D/Y` fallback branch of `calculateDaysLeft`: split on `/`, parse
    the three parts with `parseInt`, reject a missing or zero component, and
    build the day number with the `Date(y, m-1, d)` constructor.  Every
    failure collapses to `none`, which the caller maps to `-1` exactly as the
    three early `return -1` statements in the source do. -/
def parseMDY (raw : String) : Option Int :=
  match (splitOnChar '/' raw.data).map String.mk with
  | [p0, p1, p2] =>
    match parseIntJS p0, parseIntJS p1, parseIntJS p2 with
    | some mo, some da, some yr =>
      if mo = 0 ∨ da = 0 ∨ yr = 0 then none else some (jsMakeDay yr mo da)
    | _, _, _ => none
  | _ => none

/-- Model of `calculateDaysLeft` from the all-in-one `app.js` variant
    (`issue_to_json.js` bundle, lines 397-429).  `today` is the day number of
    the current local midnight; the result is the rounded whole-day difference
    (exact here, since both instants are midnights). -/
def calculateDaysLeft (today : Int) (deadlineStr : String) : Int :=
  if deadlineStr = "" then -1
  else if jsTrim deadlineStr = "" then -1
  else if specialDeadlineTokens.contains (jsLower (jsTrim deadlineStr)) then 999
  else if strIncludes (jsLower (jsTrim deadlineStr)) "rolling"
       || strIncludes (jsLower (jsTrim deadlineStr)) "varies"
       || strIncludes (jsLower (jsTrim deadlineStr)) "tbd" then 999
  else
    match parseISODate (jsTrim deadlineStr) with
    | some (y, m, d) => daysFromCivil y m d - today
    | none =>
      match parseMDY (jsTrim deadlineStr) with
      | some day => day - today
      | none => -1

/-- Empty-trim strings do not match any sentinel token. -/
theorem trim_empty_no_token {s : String} (h : jsTrim s = "") :
    specialDeadlineTokens.contains (jsLower (jsTrim s)) = false := by
  rw [h]; decide

/-- Empty-trim strings do not contain any of the rolling/varies/tbd markers. -/
theorem trim_empty_no_marker {s : String} (h : jsTrim s = "") :
    (strIncludes (jsLower (jsTrim s)) "rolling"
      || strIncludes (jsLower (jsTrim s)) "varies"
      || strIncludes (jsLower (jsTrim s)) "tbd") = false := by
  rw [h]; decide

/-- C1: `calculateDaysLeft` is total by construction and follows the spec's
    rule: a string that trims to empty yields `-1`; a lower-cased exact match
    of `ongoing`/`none`/`n/a`/`na` yields `999`; any string containing
    `rolling`, `varies` or `tbd` (case-insensitively) yields `999`; a
    parseable ISO date yields the whole-day difference from today's midnight;
    a parseable `M/D/Y` date likewise; and parse failure yields `-1`. -/
theorem calculateDaysLeft_spec (today : Int) (s : String) :
    (jsTrim s = "" → calculateDaysLeft today s = -1)
  ∧ (specialDeadlineTokens.contains (jsLower (jsTrim s)) = true →
      calculateDaysLeft today s = 999)
  ∧ ((strIncludes (jsLower (jsTrim s)) "rolling"
      || strIncludes (jsLower (jsTrim s)) "varies"
      || strIncludes (jsLower (jsTrim s)) "tbd") = true →
      calculateDaysLeft today s = 999)
  ∧ (∀ y m d, specialDeadlineTokens.contains (jsLower (jsTrim s)) = false →
      (strIncludes (jsLower (jsTrim s)) "rolling"
        || strIncludes (jsLower (jsTrim s)) "varies"
        || strIncludes (jsLower (jsTrim s)) "tbd") = false →
      parseISODate (jsTrim s) = some (y, m, d) →
      calculateDaysLeft today s = daysFromCivil y m d - today)
  ∧ (∀ day, specialDeadlineTokens.contains (jsLower (jsTrim s)) = false →
      (strIncludes (jsLower (jsTrim s)) "rolling"
        || strIncludes (jsLower (jsTrim s)) "varies"
        || strIncludes (jsLower (jsTrim s)) "tbd") = false →
      parseISODate (jsTrim s) = none →
      parseMDY (jsTrim s) = some day →
      calculateDaysLeft today s = day - today)
  ∧ (specialDeadlineTokens.contains (jsLower (jsTrim s)) = false →
      (strIncludes (jsLower (jsTrim s)) "rolling"
        || strIncludes (jsLower (jsTrim s)) "varies"
        || strIncludes (jsLower (jsTrim s)) "tbd") = false →
      parseISODate (jsTrim s) = none →
      parseMDY (jsTrim s) = none →
      calculateDaysLeft today s = -1) := by
  refine ⟨?_, ?_, ?_, ?_, ?_, ?_⟩
  · intro h
    rcases eq_or_ne s "" with rfl | hs
    · simp [calculateDaysLeft]
    · simp [calculateDaysLeft, hs, h]
  · intro h
    have h1 : jsTrim s ≠ "" := by
      intro he; rw [trim_empty_no_token he] at h; exact Bool.false_ne_true h
    have hs : s ≠ "" := by
      intro he; exact h1 (by rw [he]; decide)
    have hmem : jsLower (jsTrim s) ∈ specialDeadlineTokens := by simpa using h
    simp [calculateDaysLeft, hs, h1, hmem]
  · intro h
    have h1 : jsTrim s ≠ "" := by
      intro he; rw [trim_empty_no_marker he] at h; exact Bool.false_ne_true h
    have hs : s ≠ "" := by
      intro he; exact h1 (by rw [he]; decide)
    by_cases htok : specialDeadlineTokens.contains (jsLower (jsTrim s)) = true
    · have hmem : jsLower (jsTrim s) ∈ specialDeadlineTokens := by simpa using htok
      simp [calculateDaysLeft, hs, h1, hmem]
    · have hmem : jsLower (jsTrim s) ∉ specialDeadlineTokens := by
        simpa using (Bool.not_eq_true _).mp htok
      have hd : (strIncludes (jsLower (jsTrim s)) "rolling" = true
          ∨ strIncludes (jsLower (jsTrim s)) "varies" = true)
          ∨ strIncludes (jsLower (jsTrim s)) "tbd" = true := by simpa using h
      rcases hd with (hr | hv) | ht
      · simp [calculateDaysLeft, hs, h1, hmem, hr]
      · simp [calculateDaysLeft, hs, h1, hmem, hv]
      · simp [calculateDaysLeft, hs, h1, hmem, ht]
  · intro y m d htok hmark hp
    have h1 : jsTrim s ≠ "" := by
      intro he
      rw [he] at hp
      rw [show parseISODate "" = none from by decide] at hp
      exact Option.noConfusion hp
    have hs : s ≠ "" := by
      intro he; exact h1 (by rw [he]; decide)
    have hmem : jsLower (jsTrim s) ∉ specialDeadlineTokens := by simpa using htok
    simp only [Bool.or_eq_false_iff] at hmark
    obtain ⟨⟨hr, hv⟩, ht⟩ := hmark
    simp [calculateDaysLeft, hs, h1, hmem, hr, hv, ht, hp]
  · intro day htok hmark hp hm
    have h1 : jsTrim s ≠ "" := by
      intro he
      rw [he] at hm
      rw [show parseMDY "" = none from by decide] at hm
      exact Option.noConfusion hm
    have hs : s ≠ "" := by
      intro he; exact h1 (by rw [he]; decide)
    have hmem : jsLower (jsTrim s) ∉ specialDeadlineTokens := by simpa using htok
    simp only [Bool.or_eq_false_iff] at hmark
    obtain ⟨⟨hr, hv⟩, ht⟩ := hmark
    simp [calculateDaysLeft, hs, h1, hmem, hr, hv, ht, hp, hm]
  · intro htok hmark hp hm
    rcases eq_or_ne s "" with rfl | hs
    · simp [calculateDaysLeft]
    · rcases eq_or_ne (jsTrim s) "" with h1 | h1
      · simp [calculateDaysLeft, hs, h1]
      · have hmem : jsLower (jsTrim s) ∉ specialDeadlineTokens := by simpa using htok
        simp only [Bool.or_eq_false_iff] at hmark
        obtain ⟨⟨hr, hv⟩, ht⟩ := hmark
        simp [calculateDaysLeft, hs, h1, hmem, hr, hv, ht, hp, hm]

/-- Witness for C1 at concrete inputs: the four behaviours named by the spec's
    test vector, with today fixed at 2026-10-11. -/
theorem calculateDaysLeft_spec_witness :
    calculateDaysLeft (daysFromCivil 2026 10 11) "   " = -1
  ∧ calculateDaysLeft (daysFromCivil 2026 10 11) "Rolling basis" = 999
  ∧ calculateDaysLeft (daysFromCivil 2026 10 11) "2026-10-12" = 1
  ∧ calculateDaysLeft (daysFromCivil 2026 10 11) "2026-10-10" = -1
  ∧ (-1 : Int) < 0 := by
  refine ⟨?_, ?_, ?_, ?_, by decide⟩
  · exact (calculateDaysLeft_spec (daysFromCivil 2026 10 11) "   ").1 (by decide)
  · exact (calculateDaysLeft_spec (daysFromCivil 2026 10 11) "Rolling basis").2.2.1 (by decide)
  · have := (calculateDaysLeft_spec (daysFromCivil 2026 10 11) "2026-10-12").2.2.2.1
      2026 10 12 (by decide) (by decide) (by decide)
    rw [this]; decide
  · have := (calculateDaysLeft_spec (daysFromCivil 2026 10 11) "2026-10-10").2.2.2.1
      2026 10 10 (by decide) (by decide) (by decide)
    rw [this]; decide

/-- The fixed two-letter-to-full-name state table from the all-in-one
    `app.js` variant (50 states plus DC). -/
def stateMapping : List (String × String) :=
  [("AL", "Alabama"), ("AK", "Alaska"), ("AZ", "Arizona"), ("AR", "Arkansas"),
   ("CA", "California"), ("CO", "Colorado"), ("CT", "Connecticut"), ("DE", "Delaware"),
   ("FL", "Florida"), ("GA", "Georgia"), ("HI", "Hawaii"), ("ID", "Idaho"),
   ("IL", "Illinois"), ("IN", "Indiana"), ("IA", "Iowa"), ("KS", "Kansas"),
   ("KY", "Kentucky"), ("LA", "Louisiana"), ("ME", "Maine"), ("MD", "Maryland"),
   ("MA", "Massachusetts"), ("MI", "Michigan"), ("MN", "Minnesota"), ("MS", "Mississippi"),
   ("MO", "Missouri"), ("MT", "Montana"), ("NE", "Nebraska"), ("NV", "Nevada"),
   ("NH", "New Hampshire"), ("NJ", "New Jersey"), ("NM", "New Mexico"), ("NY", "New York"),
   ("NC", "North Carolina"), ("ND", "North Dakota"), ("OH", "Ohio"), ("OK", "Oklahoma"),
   ("OR", "Oregon"), ("PA", "Pennsylvania"), ("RI", "Rhode Island"), ("SC", "South Carolina"),
   ("SD", "South Dakota"), ("TN", "Tennessee"), ("TX", "Texas"), ("UT", "Utah"),
   ("VT", "Vermont"), ("VA", "Virginia"), ("WA", "Washington"), ("WV", "West Virginia"),
   ("WI", "Wisconsin"), ("WY", "Wyoming"), ("DC", "District of Columbia")]

/-- State-filter predicate of `renderOpportunities`: an empty selection
    matches everything; the selection `Nationwide` matches only records whose
    state is `Nationwide`; any other selection matches a record whose state
    is `Nationwide`, the selection itself, or the selection's full-name
    expansion when the selection is a key of `stateMapping` (a JavaScript
    comparison against an `undefined` table entry is false in the model,
    since record states are strings). -/
def matchesState (selectedState oppState : String) : Bool :=
  if selectedState ≠ "" then
    if selectedState = "Nationwide" then oppState = "Nationwide"
    else
      match stateMapping.lookup selectedState with
      | some full => oppState = "Nationwide" || oppState = selectedState || oppState = full
      | none => oppState = "Nationwide" || oppState = selectedState
  else true

/-- Counterexample to C2 as stated: the selection `All` does not keep every
    record — a record whose state is `CA` is dropped, because `All` is not a
    key of the state table and is simply treated as an unknown state name. -/
theorem matchesState_all_counterexample :
    matchesState "All" "CA" = false ∧ matchesState "" "CA" = true := by decide

/-- C2 (amended): an empty selection keeps every record, and every non-empty
    selection — including the literal `All`, which the claim wrongly singles
    out as matching everything — keeps a record exactly when its state equals
    the selection, equals the selection's expansion under the fixed 50-state
    plus-DC table, or equals the literal `Nationwide`. -/
theorem matchesState_characterization (sel st : String) :
    matchesState "" st = true
  ∧ (sel ≠ "" →
      (matchesState sel st = true ↔
        st = sel ∨ (∃ full, stateMapping.lookup sel = some full ∧ st = full)
          ∨ st = "Nationwide")) := by
  constructor
  · simp [matchesState]
  · intro h
    by_cases hn : sel = "Nationwide"
    · subst hn
      rw [show stateMapping.lookup "Nationwide" = none from by decide]
      simp [matchesState]
    · cases hl : stateMapping.lookup sel with
      | none =>
        simp [matchesState, h, hn, hl]
        tauto
      | some full =>
        simp [matchesState, h, hn, hl]
        tauto

/-- Witness for C2 at a concrete selection and record state: the selection
    `MT` keeps a record whose state is the expanded name `Montana`. -/
theorem matchesState_characterization_witness :
    ("MT" : String) ≠ ""
  ∧ (matchesState "MT" "Montana" = true ↔
      "Montana" = "MT" ∨ (∃ full, stateMapping.lookup "MT" = some full ∧ "Montana" = full)
        ∨ "Montana" = "Nationwide") := by
  exact ⟨by decide, (matchesState_characterization "MT" "Montana").2 (by decide)⟩

/-- Normalised opportunity record as built by `loadOpportunities` in the
    all-in-one `app.js` variant.  Only the fields the filter, sort and badge
    logic read are kept. -/
structure Opp where
  id : String
  title : String
  description : String
  category : String
  state : String
  geography : String
  deadline : String
  daysLeft : Int
  urgencyDays : Option Int
  featured : Bool
deriving DecidableEq, Repr

/-- JavaScript `daysLeft || 999`: the only falsy `Int` is zero. -/
def jsDaysOr999 (d : Int) : Int := if d = 0 then 999 else d

/-- Sort comparator of `renderOpportunities`: featured records first, then
    ascending `daysLeft` with zero pushed to the end as 999. -/
def oppCompare (a b : Opp) : Int :=
  if a.featured && !b.featured then -1
  else if !a.featured && b.featured then 1
  else jsDaysOr999 a.daysLeft - jsDaysOr999 b.daysLeft

/-- Non-strict order induced by the comparator, as `Array.prototype.sort`
    interprets a comparator result `≤ 0`. -/
def oppLe (a b : Opp) : Bool := oppCompare a b ≤ 0

/-- The sorted filtered list: `Array.prototype.sort` is a stable sort, which
    `List.mergeSort` models. -/
def sortOpportunities (l : List Opp) : List Opp := l.mergeSort oppLe

/-- Transitivity of the comparator order. -/
theorem oppLe_trans (a b c : Opp) (hab : oppLe a b) (hbc : oppLe b c) : oppLe a c := by
  simp only [oppLe, oppCompare, jsDaysOr999, decide_eq_true_eq] at *
  cases ha : a.featured <;> cases hb : b.featured <;> cases hc : c.featured <;>
    simp [ha, hb, hc] at * <;> omega

/-- Totality of the comparator order. -/
theorem oppLe_total (a b : Opp) : oppLe a b || oppLe b a := by
  simp only [oppLe, oppCompare, jsDaysOr999, Bool.or_eq_true, decide_eq_true_eq]
  cases ha : a.featured <;> cases hb : b.featured <;> simp [ha, hb] <;> omega

/-- C3: the sort is stable and total — running it a second time leaves the
    order unchanged, the comparator order is total, and in the sorted output
    every featured record precedes every non-featured record regardless of
    the remaining fields. -/
theorem sortOpportunities_spec (l : List Opp) :
    sortOpportunities (sortOpportunities l) = sortOpportunities l
  ∧ (∀ a b : Opp, (oppLe a b || oppLe b a) = true)
  ∧ (sortOpportunities l).Pairwise (fun a b => b.featured = true → a.featured = true) := by
  have hsorted := List.sorted_mergeSort oppLe_trans oppLe_total l
  refine ⟨List.mergeSort_of_sorted hsorted, oppLe_total, ?_⟩
  refine hsorted.imp ?_
  intro a b hle hbf
  by_contra haf
  have haf' : a.featured = false := Bool.not_eq_true _ |>.mp haf
  simp [oppLe, oppCompare, haf', hbf] at hle

/-- Record whose category string is literally `saved`, used to exhibit the
    flaw in C4. -/
def savedCategoryOpp : Opp :=
  { id := "x1", title := "T", description := "", category := "saved", state := "CA",
    geography := "state", deadline := "", daysLeft := 10, urgencyDays := none,
    featured := false }

/-- Category-filter predicate of `renderOpportunities`: the special keys
    `all`, `saved`, `ending` and `national` are checked first, and the exact
    category-string comparison is OR-ed in unconditionally. -/
def matchesCategory (currentCategory : String) (savedIds : List String) (o : Opp) : Bool :=
  currentCategory = "all"
  || (if currentCategory = "saved" then savedIds.contains o.id else false)
  || (currentCategory = "ending" && o.daysLeft < 30 && 0 < o.daysLeft)
  || (currentCategory = "national" && o.geography = "national")
  || o.category = currentCategory

/-- Counterexample to C4 as stated: with an empty saved set, the `saved`
    filter still keeps a record whose category string is literally `saved`,
    because the exact category comparison is OR-ed into every branch; so the
    filter neither returns only saved ids nor is empty for an empty set. -/
theorem matchesCategory_saved_counterexample :
    matchesCategory "saved" [] savedCategoryOpp = true
  ∧ ([] : List String).contains savedCategoryOpp.id = false := by decide

/-- C4 (amended): filtering with category `saved` keeps exactly the records
    whose id is in the saved set, plus the records whose category string is
    literally `saved`; with an empty saved set only the latter remain. -/
theorem matchesCategory_saved_characterization (savedIds : List String) (o : Opp) :
    (matchesCategory "saved" savedIds o = true ↔
      savedIds.contains o.id = true ∨ o.category = "saved")
  ∧ (matchesCategory "saved" [] o = true ↔ o.category = "saved") := by
  constructor
  · simp [matchesCategory]
  · simp [matchesCategory]

/-- Badge tier computed by `getUrgencyBadge`; the constructor `noBadge`
    stands for the empty HTML string the source returns both outside the
    badge window and in the `else` tier. -/
inductive UrgencyTier where
  | urgent
  | warning
  | notice
  | noBadge
deriving DecidableEq, Repr

/-- Model of `getUrgencyBadge(urgencyDays, daysLeft)`: `urgencyDays || daysLeft`
    selects the days value (zero and absent are falsy), and `!days` or a value
    outside `(0, 900]` suppresses the badge before the tier thresholds run. -/
def getUrgencyBadge (urgencyDays : Option Int) (daysLeft : Int) : UrgencyTier :=
  let days := match urgencyDays with
    | some u => if u = 0 then daysLeft else u
    | none => daysLeft
  if days = 0 ∨ days < 0 ∨ 900 < days then UrgencyTier.noBadge
  else if days ≤ 7 then UrgencyTier.urgent
  else if days ≤ 30 then UrgencyTier.warning
  else if days ≤ 60 then UrgencyTier.notice
  else UrgencyTier.noBadge

/-- Counterexample to C5 as stated: a days value of `0` lies inside `[0, 900]`
    and is at most 7, so the claim demands the `urgent` tier, but the code's
    falsy test `!days` suppresses the badge entirely. -/
theorem getUrgencyBadge_zero_counterexample :
    getUrgencyBadge none 0 = UrgencyTier.noBadge
  ∧ getUrgencyBadge none 0 ≠ UrgencyTier.urgent
  ∧ (0 : Int) ≤ 7 ∧ 0 ≤ (0 : Int) ∧ (0 : Int) ≤ 900 := by decide

/-- C5 (amended): the badge is suppressed exactly outside `[1, 900]` (zero is
    falsy and also suppressed); within that window the tiers are `urgent` up
    to 7 days, `warning` up to 30, `notice` up to 60 and no badge thereafter;
    and a non-zero `urgencyDays` overrides `daysLeft` while a zero or absent
    one defers to it. -/
theorem getUrgencyBadge_tiers (days : Int) :
    ((days ≤ 0 ∨ 900 < days) → getUrgencyBadge none days = UrgencyTier.noBadge)
  ∧ (1 ≤ days → days ≤ 7 → getUrgencyBadge none days = UrgencyTier.urgent)
  ∧ (8 ≤ days → days ≤ 30 → getUrgencyBadge none days = UrgencyTier.warning)
  ∧ (31 ≤ days → days ≤ 60 → getUrgencyBadge none days = UrgencyTier.notice)
  ∧ (61 ≤ days → days ≤ 900 → getUrgencyBadge none days = UrgencyTier.noBadge)
  ∧ (∀ u : Int, u ≠ 0 → getUrgencyBadge (some u) days = getUrgencyBadge none u)
  ∧ getUrgencyBadge (some 0) days = getUrgencyBadge none days := by
  refine ⟨?_, ?_, ?_, ?_, ?_, ?_, ?_⟩
  · intro h; simp only [getUrgencyBadge]; split_ifs <;> first | rfl | omega
  · intro h1 h2; simp only [getUrgencyBadge]; split_ifs <;> first | rfl | omega
  · intro h1 h2; simp only [getUrgencyBadge]; split_ifs <;> first | rfl | omega
  · intro h1 h2; simp only [getUrgencyBadge]; split_ifs <;> first | rfl | omega
  · intro h1 h2; simp only [getUrgencyBadge]; split_ifs <;> first | rfl | omega
  · intro u hu; simp only [getUrgencyBadge, if_neg hu]
  · simp [getUrgencyBadge]

/-- Witness for C5 at concrete days values, one per tier clause. -/
theorem getUrgencyBadge_tiers_witness :
    getUrgencyBadge none (-3) = UrgencyTier.noBadge
  ∧ getUrgencyBadge none 5 = UrgencyTier.urgent
  ∧ getUrgencyBadge none 20 = UrgencyTier.warning
  ∧ getUrgencyBadge none 45 = UrgencyTier.notice
  ∧ getUrgencyBadge none 400 = UrgencyTier.noBadge
  ∧ getUrgencyBadge (some 5) 77 = getUrgencyBadge none 5 := by
  refine ⟨?_, ?_, ?_, ?_, ?_, ?_⟩
  · exact (getUrgencyBadge_tiers (-3)).1 (Or.inl (by decide))
  · exact (getUrgencyBadge_tiers 5).2.1 (by decide) (by decide)
  · exact (getUrgencyBadge_tiers 20).2.2.1 (by decide) (by decide)
  · exact (getUrgencyBadge_tiers 45).2.2.2.1 (by decide) (by decide)
  · exact (getUrgencyBadge_tiers 400).2.2.2.2.1 (by decide) (by decide)
  · exact (getUrgencyBadge_tiers 77).2.2.2.2.2.1 5 (by decide)

/-- Skip JSON whitespace characters. -/
def skipWs : List Char → List Char
  | [] => []
  | c :: cs => if isWsChar c then skipWs cs else c :: cs

/-- Parse a JSON string literal without escape sequences (the shim only ever
    stores plain id strings produced by `JSON.stringify`). -/
def parseJStr : List Char → Option (String × List Char)
  | '"' :: cs =>
      let tok := cs.takeWhile (fun c => ¬(c = '"'))
      match cs.drop tok.length with
      | '"' :: rest => some (String.mk tok, rest)
      | _ => none
  | _ => none

/-- Parse the comma-separated elements of a JSON string array; the fuel is
    at least the input length, which bounds the recursion. -/
def parseArrayItems : Nat → List Char → List String → Option (List String × List Char)
  | 0, _, _ => none
  | fuel + 1, cs, acc =>
    match parseJStr (skipWs cs) with
    | none => none
    | some (s, rest) =>
      match skipWs rest with
      | ',' :: rest2 => parseArrayItems fuel rest2 (acc ++ [s])
      | restF => some (acc ++ [s], restF)

/-- Model of `JSON.parse` restricted to the values the saved-set shim stores:
    arrays of plain string literals, with arbitrary surrounding whitespace.
    `none` plays the role of the `SyntaxError` that `JSON.parse` throws. -/
def parseIdArray (s : String) : Option (List String) :=
  match skipWs s.data with
  | '[' :: cs1 =>
    match skipWs cs1 with
    | ']' :: cs2 => if skipWs cs2 = [] then some [] else none
    | cs2 =>
      match parseArrayItems (s.data.length + 1) cs2 [] with
      | some (items, rest) =>
        match rest with
        | ']' :: cs3 => if skipWs cs3 = [] then some items else none
        | _ => none
      | none => none
  | _ => none

/-- Model of the saved-set startup read
    `JSON.parse(localStorage.getItem('eosguide-saved') || '[]')`: an absent or
    empty stored value falls back to `[]`, and a parse failure propagates as
    the uncaught `SyntaxError` (`Except.error`). -/
def loadSaved (stored : Option String) : Except String (List String) :=
  let raw := match stored with
    | none => "[]"
    | some s => if s = "" then "[]" else s
  match parseIdArray raw with
  | some l => Except.ok l
  | none => Except.error "SyntaxError: Unexpected token"

/-- Counterexample to C6 as stated: a corrupt stored value is not treated as
    an empty set — `JSON.parse` throws, because the startup read has no
    try/catch around it. -/
theorem loadSaved_corrupt_counterexample :
    loadSaved (some "oops") = Except.error "SyntaxError: Unexpected token" := rfl

/-- C6 (amended): the startup read returns the empty set when nothing (or an
    empty string) is stored and the persisted list when the stored value
    parses; a corrupt stored value makes `JSON.parse` throw — the exception
    is not caught. -/
theorem loadSaved_characterization (stored : Option String) :
    loadSaved none = Except.ok []
  ∧ (∀ s l, stored = some s → parseIdArray (if s = "" then "[]" else s) = some l →
      loadSaved stored = Except.ok l)
  ∧ (∀ s, stored = some s → parseIdArray (if s = "" then "[]" else s) = none →
      loadSaved stored = Except.error "SyntaxError: Unexpected token") := by
  refine ⟨rfl, ?_, ?_⟩
  · intro s l hst hp
    subst hst
    simp only [loadSaved, hp]
  · intro s hst hp
    subst hst
    simp only [loadSaved, hp]

/-- Witness for C6 at a concrete stored value holding one id. -/
theorem loadSaved_characterization_witness :
    parseIdArray "[\"a1\"]" = some ["a1"]
  ∧ loadSaved (some "[\"a1\"]") = Except.ok ["a1"] := by
  refine ⟨by decide, ?_⟩
  exact (loadSaved_characterization (some "[\"a1\"]")).2.1 "[\"a1\"]" ["a1"] rfl (by decide)

/-- Decimal digits of a natural number, most significant first; the fuel
    bounds the number of digits (20 covers every number the model meets). -/
def natDigitsAux : Nat → Nat → List Char
  | 0, _ => []
  | fuel + 1, n =>
    if n < 10 then [Char.ofNat (48 + n)]
    else natDigitsAux fuel (n / 10) ++ [Char.ofNat (48 + n % 10)]

/-- Render a natural number in decimal. -/
def natToStr (n : Nat) : String := String.mk (natDigitsAux 20 n)

/-- Short month names used by `toLocaleDateString('en-US', {month: 'short'})`. -/
def monthShortName (m : Int) : String :=
  if m = 1 then "Jan" else if m = 2 then "Feb" else if m = 3 then "Mar"
  else if m = 4 then "Apr" else if m = 5 then "May" else if m = 6 then "Jun"
  else if m = 7 then "Jul" else if m = 8 then "Aug" else if m = 9 then "Sep"
  else if m = 10 then "Oct" else if m = 11 then "Nov" else if m = 12 then "Dec"
  else ""

/-- Model of `formatDeadline`: a falsy deadline yields `No deadline`;
    otherwise `new Date(deadline)` parses the string and
    `toLocaleDateString('en-US', ...)` renders it.  ECMA-402 makes
    `toLocaleDateString` return the string `Invalid Date` — it does not throw
    — when the parse failed, so the `catch` branch of the source can never
    run and the raw string is never returned for a nonempty deadline. -/
def formatDeadline (deadline : String) : String :=
  if deadline = "" then "No deadline"
  else
    match parseISODate deadline with
    | some (y, m, d) => monthShortName m ++ " " ++ natToStr d.toNat ++ ", " ++ natToStr y.toNat
    | none => "Invalid Date"

/-- C7: evaluation of `formatDeadline` at the failing input `not-a-date`
    (and at the two inputs the claim gets right).  The claim says an
    unparseable deadline falls back to the raw stored string, but locale date
    formatting does not throw on an invalid date — it renders the literal
    `Invalid Date` — so the fallback `catch` is unreachable and the raw
    string is never returned. -/
theorem formatDeadline_invalid_date :
    formatDeadline "not-a-date" = "Invalid Date"
  ∧ formatDeadline "not-a-date" ≠ "not-a-date"
  ∧ formatDeadline "" = "No deadline"
  ∧ formatDeadline "2026-10-12" = "Oct 12, 2026" := by decide

/-- Model of `toggleSaved`: remove the id when present (JavaScript `filter`
    removes every occurrence), append it when absent, then persist. -/
def toggleSaved (saved : List String) (oppId : String) : List String :=
  if saved.contains oppId then saved.filter (fun id => ¬(id = oppId))
  else saved ++ [oppId]

/-- Membership after one toggle: the id is removed when it was present and
    appended when it was absent, other elements are untouched. -/
theorem toggleSaved_mem (saved : List String) (oppId x : String) :
    x ∈ toggleSaved saved oppId ↔
      (oppId ∈ saved ∧ x ∈ saved ∧ ¬(x = oppId))
      ∨ (oppId ∉ saved ∧ (x ∈ saved ∨ x = oppId)) := by
  by_cases h : oppId ∈ saved
  · simp [toggleSaved, h, List.mem_filter]
  · simp [toggleSaved, h]

/-- Two toggles of the same id restore membership exactly. -/
theorem toggleSaved_twice_mem (saved : List String) (oppId x : String) :
    x ∈ toggleSaved (toggleSaved saved oppId) oppId ↔ x ∈ saved := by
  by_cases h : oppId ∈ saved <;> by_cases hx : x = oppId <;>
    simp [toggleSaved_mem, h, hx]

/-- C8: `toggleSaved` adds an absent id and removes a present one, membership
    flips on every toggle, and two consecutive toggles of the same id leave
    the persisted set (membership-wise) exactly as it started. -/
theorem toggleSaved_spec (saved : List String) (oppId : String) :
    (saved.contains oppId = false → toggleSaved saved oppId = saved ++ [oppId])
  ∧ (saved.contains oppId = true →
      toggleSaved saved oppId = saved.filter (fun id => ¬(id = oppId)))
  ∧ ((toggleSaved saved oppId).contains oppId = !(saved.contains oppId))
  ∧ (∀ x, (toggleSaved (toggleSaved saved oppId) oppId).contains x = saved.contains x) := by
  refine ⟨?_, ?_, ?_, ?_⟩
  · intro h
    have hm : oppId ∉ saved := by simpa using h
    simp [toggleSaved, hm]
  · intro h
    have hm : oppId ∈ saved := by simpa using h
    simp [toggleSaved, hm]
  · have hiff : oppId ∈ toggleSaved saved oppId ↔ ¬(oppId ∈ saved) := by
      by_cases h : oppId ∈ saved <;> simp [toggleSaved_mem, h]
    simp only [List.contains, List.elem_eq_mem]
    rw [← decide_not]
    exact decide_eq_decide.mpr hiff
  · intro x
    simp only [List.contains, List.elem_eq_mem]
    exact decide_eq_decide.mpr (toggleSaved_twice_mem saved oppId x)

/-- Witness for C8 at a concrete saved set and id: toggling `b` into `[a]`
    appends it, and toggling twice restores membership everywhere. -/
theorem toggleSaved_spec_witness :
    toggleSaved ["a"] "b" = ["a", "b"]
  ∧ (toggleSaved (toggleSaved ["a"] "b") "b").contains "a" = (["a"] : List String).contains "a"
  ∧ (toggleSaved (toggleSaved ["a"] "b") "b").contains "b" = (["a"] : List String).contains "b" := by
  refine ⟨?_, ?_, ?_⟩
  · exact (toggleSaved_spec ["a"] "b").1 (by decide)
  · exact (toggleSaved_spec ["a"] "b").2.2.2 "a"
  · exact (toggleSaved_spec ["a"] "b").2.2.2 "b"

/-- Strict lexicographic order on character lists by code point, the order
    JavaScript `<` uses on strings (identical on the ASCII data here). -/
def listLt : List Char → List Char → Bool
  | [], [] => false
  | [], _ :: _ => true
  | _ :: _, [] => false
  | a :: as, b :: bs => decide (a < b) || (a = b && listLt as bs)

/-- Model of the JavaScript string comparison `a < b`. -/
def strLtB (a b : String) : Bool := listLt a.data b.data

/-- Irreflexivity of the lexicographic order. -/
theorem listLt_irrefl : ∀ l : List Char, listLt l l = false
  | [] => rfl
  | c :: cs => by simp [listLt, lt_irrefl, listLt_irrefl cs]

/-- Transitivity of the lexicographic order. -/
theorem listLt_trans : ∀ a b c : List Char,
    listLt a b = true → listLt b c = true → listLt a c = true
  | [], [], _ => by simp [listLt]
  | [], _ :: _, [] => by simp [listLt]
  | [], _ :: _, _ :: _ => by simp [listLt]
  | _ :: _, [], _ => by simp [listLt]
  | _ :: _, _ :: _, [] => by simp [listLt]
  | x :: xs, y :: ys, z :: zs => by
    simp only [listLt, Bool.or_eq_true, Bool.and_eq_true, decide_eq_true_eq]
    rintro (hxy | ⟨rfl, hxy⟩) (hyz | ⟨rfl, hyz⟩)
    · exact Or.inl (lt_trans hxy hyz)
    · exact Or.inl hxy
    · exact Or.inl hyz
    · exact Or.inr ⟨rfl, listLt_trans xs ys zs hxy hyz⟩

/-- Asymmetry of the lexicographic order. -/
theorem listLt_asymm : ∀ a b : List Char, listLt a b = true → listLt b a = false
  | [], [] => by simp [listLt]
  | [], _ :: _ => by simp [listLt]
  | _ :: _, [] => by simp [listLt]
  | x :: xs, y :: ys => by
    simp only [listLt, Bool.or_eq_true, Bool.and_eq_true, decide_eq_true_eq,
      Bool.or_eq_false_iff, Bool.and_eq_false_iff, decide_eq_false_iff_not]
    rintro (hxy | ⟨rfl, hxy⟩)
    · exact ⟨not_lt_of_lt hxy, Or.inl (fun he => absurd hxy (by simp [he]))⟩
    · exact ⟨lt_irrefl x, Or.inr (listLt_asymm xs ys hxy)⟩

/-- Connexity: two lists neither of which precedes the other are equal. -/
theorem listLt_connex : ∀ a b : List Char,
    listLt a b = false → listLt b a = false → a = b
  | [], [], _, _ => rfl
  | [], _ :: _, h, _ => by simp [listLt] at h
  | _ :: _, [], _, h => by simp [listLt] at h
  | x :: xs, y :: ys, h1, h2 => by
    simp only [listLt, Bool.or_eq_false_iff, Bool.and_eq_false_iff,
      decide_eq_false_iff_not] at h1 h2
    obtain ⟨hxy, h1'⟩ := h1
    obtain ⟨hyx, h2'⟩ := h2
    have hxe : x = y := le_antisymm (le_of_not_lt hyx) (le_of_not_lt hxy)
    subst hxe
    rcases h1' with he | h1t
    · exact absurd rfl he
    · rcases h2' with he | h2t
      · exact absurd rfl he
      · rw [listLt_connex xs ys h1t h2t]

/-- Raw dataset record as the ingestion script reads it from
    `data/opportunities.json`; only the fields the expiry, dedup and sort
    steps touch are modelled, each already coerced to a string as `safeStr`
    does before trimming. -/
structure RawRec where
  id : String
  url : String
  deadline : String
deriving DecidableEq, Repr

/-- Model of `isExpired`: an empty deadline never expires, otherwise compare
    ISO strings lexicographically against today's UTC date string. -/
def isExpired (todayISO deadlineISO : String) : Bool :=
  if deadlineISO = "" then false else strLtB deadlineISO todayISO

/-- Records surviving the expiry filter of the ingestion `main`. -/
def survivors (todayISO : String) (existing : List RawRec) : List RawRec :=
  existing.filter (fun x => !(isExpired todayISO (jsTrim x.deadline)))

/-- Dedup test of the ingestion `main`: some surviving record has the new
    item's id or its url (the new item's fields come straight from `makeId`
    and the parsed urls, so they are compared untrimmed on the right). -/
def dedupHit (item : RawRec) (l : List RawRec) : Bool :=
  l.any (fun x => jsTrim x.id == item.id || jsTrim x.url == item.url)

/-- Sort key of the final deadline sort: blank deadlines sort last via the
    sentinel `9999-12-31`. -/
def deadlineKey (x : RawRec) : String :=
  if jsTrim x.deadline = "" then "9999-12-31" else jsTrim x.deadline

/-- Non-strict comparator order for the deadline sort
    (`localeCompare` ascending, modelled as code-point order). -/
def deadlineLe (a b : RawRec) : Bool := !(strLtB (deadlineKey b) (deadlineKey a))

/-- Transitivity of the deadline order. -/
theorem deadlineLe_trans (a b c : RawRec)
    (hab : deadlineLe a b) (hbc : deadlineLe b c) : deadlineLe a c := by
  simp only [deadlineLe, strLtB, Bool.not_eq_true'] at *
  by_contra hca
  have hca' : listLt (deadlineKey c).data (deadlineKey a).data = true := by
    revert hca
    cases listLt (deadlineKey c).data (deadlineKey a).data <;> simp
  by_cases hbcb : listLt (deadlineKey b).data (deadlineKey c).data = true
  · exact absurd (listLt_trans _ _ _ hbcb hca') (by simp [hab])
  · have hbe := listLt_connex _ _ hbc (Bool.not_eq_true _ |>.mp hbcb)
    rw [hbe] at hca'
    exact absurd hca' (by simp [hab])

/-- Totality of the deadline order. -/
theorem deadlineLe_total (a b : RawRec) : deadlineLe a b || deadlineLe b a := by
  simp only [deadlineLe, strLtB, Bool.or_eq_true, Bool.not_eq_true']
  by_cases h : listLt (deadlineKey b).data (deadlineKey a).data = true
  · exact Or.inr (listLt_asymm _ _ h)
  · exact Or.inl (Bool.not_eq_true _ |>.mp h)

/-- One run of the ingestion step on a loaded dataset: drop expired records,
    prepend the new item unless a surviving record shares its id or url, and
    sort by deadline with blanks last. -/
def ingest (todayISO : String) (item : RawRec) (existing : List RawRec) : List RawRec :=
  let surv := survivors todayISO existing
  let withNew := if dedupHit item surv then surv else item :: surv
  withNew.mergeSort deadlineLe

/-- C9: the ingestion step keeps exactly the records whose deadline is not
    strictly before today (an empty deadline never counts as expired), adds
    the new record exactly when no surviving record shares its id or url, and
    preserves uniqueness of (trimmed) ids. -/
theorem ingest_spec (todayISO : String) (item : RawRec) (existing : List RawRec) :
    (∀ x, x ∈ survivors todayISO existing ↔
        (x ∈ existing ∧ isExpired todayISO (jsTrim x.deadline) = false))
  ∧ (dedupHit item (survivors todayISO existing) = true →
        (ingest todayISO item existing).Perm (survivors todayISO existing))
  ∧ (dedupHit item (survivors todayISO existing) = false →
        (ingest todayISO item existing).Perm (item :: survivors todayISO existing))
  ∧ (jsTrim item.id = item.id →
      (existing.map (fun x => jsTrim x.id)).Nodup →
      ((ingest todayISO item existing).map (fun x => jsTrim x.id)).Nodup) := by
  refine ⟨?_, ?_, ?_, ?_⟩
  · intro x
    simp [survivors, List.mem_filter]
  · intro h
    rw [show ingest todayISO item existing
        = (survivors todayISO existing).mergeSort deadlineLe from by simp [ingest, h]]
    exact List.mergeSort_perm _ _
  · intro h
    rw [show ingest todayISO item existing
        = (item :: survivors todayISO existing).mergeSort deadlineLe from by
          simp [ingest, h]]
    exact List.mergeSort_perm _ _
  · intro hid hnd
    have hsub : List.Sublist ((survivors todayISO existing).map (fun x => jsTrim x.id))
        (existing.map (fun x => jsTrim x.id)) := (List.filter_sublist _).map _
    have hns : ((survivors todayISO existing).map (fun x => jsTrim x.id)).Nodup :=
      hnd.sublist hsub
    by_cases h : dedupHit item (survivors todayISO existing) = true
    · rw [show ingest todayISO item existing
          = (survivors todayISO existing).mergeSort deadlineLe from by simp [ingest, h]]
      exact ((List.mergeSort_perm _ _).map _).nodup_iff.mpr hns
    · have hfalse : dedupHit item (survivors todayISO existing) = false :=
        Bool.not_eq_true _ |>.mp h
      rw [show ingest todayISO item existing
          = (item :: survivors todayISO existing).mergeSort deadlineLe from by
            simp [ingest, hfalse]]
      have hallnodup : ((item :: survivors todayISO existing).map
          (fun x => jsTrim x.id)).Nodup := by
        simp only [List.map_cons]
        refine List.nodup_cons.mpr ⟨?_, hns⟩
        rw [hid]
        intro hmem
        obtain ⟨y, hy, hyid⟩ := List.mem_map.mp hmem
        have hhit : dedupHit item (survivors todayISO existing) = true := by
          simp only [dedupHit, List.any_eq_true]
          exact ⟨y, hy, by simp [hyid]⟩
        rw [hfalse] at hhit
        exact Bool.false_ne_true hhit
      exact ((List.mergeSort_perm _ _).map _).nodup_iff.mpr hallnodup

/-- Fresh record submitted to the ingestion step in the C9 witness. -/
def ingestItem : RawRec := { id := "newid", url := "https://x/new", deadline := "2026-12-01" }

/-- Pre-existing dataset for the C9 witness: one expired record, one without
    a deadline. -/
def ingestExisting : List RawRec :=
  [{ id := "old1", url := "https://x/1", deadline := "2020-01-01" },
   { id := "old2", url := "https://x/2", deadline := "" }]

/-- Witness for C9 on a concrete dataset with today fixed at 2026-10-11. -/
theorem ingest_spec_witness :
    dedupHit ingestItem (survivors "2026-10-11" ingestExisting) = false
  ∧ (ingest "2026-10-11" ingestItem ingestExisting).Perm
      (ingestItem :: survivors "2026-10-11" ingestExisting)
  ∧ ((ingest "2026-10-11" ingestItem ingestExisting).map (fun x => jsTrim x.id)).Nodup := by
  refine ⟨by decide, ?_, ?_⟩
  · exact (ingest_spec "2026-10-11" ingestItem ingestExisting).2.2.1 (by decide)
  · exact (ingest_spec "2026-10-11" ingestItem ingestExisting).2.2.2
      (by decide) (by decide)

/-- Opening-brace character, written via its code point. -/
def lbraceChar : Char := Char.ofNat 123

/-- Closing-brace character, written via its code point. -/
def rbraceChar : Char := Char.ofNat 125

/-- Value of a hexadecimal digit character. -/
def hexVal (c : Char) : Option Nat :=
  if '0' ≤ c ∧ c ≤ '9' then some (c.toNat - 48)
  else if 'a' ≤ c ∧ c ≤ 'f' then some (c.toNat - 87)
  else if 'A' ≤ c ∧ c ≤ 'F' then some (c.toNat - 55)
  else none

/-- Percent-decoding of `application/x-www-form-urlencoded` data as
    `URLSearchParams` performs it: `+` becomes a space, `%XX` becomes the
    character with that code (ASCII range), and a malformed escape is kept
    literally. -/
def urlDecodeChars : List Char → List Char
  | [] => []
  | '+' :: cs => ' ' :: urlDecodeChars cs
  | '%' :: a :: b :: cs =>
    match hexVal a, hexVal b with
    | some ha, some hb => Char.ofNat (16 * ha + hb) :: urlDecodeChars cs
    | _, _ => '%' :: urlDecodeChars (a :: b :: cs)
  | c :: cs => c :: urlDecodeChars cs

/-- Key-value pairs of a form-encoded body: split on `&`, drop empty
    segments, split each segment at the first `=`, decode keys and values. -/
def parseFormPairs (body : String) : List (String × String) :=
  ((splitOnChar '&' body.data).filter (fun p => ¬p.isEmpty)).map fun pair =>
    match splitOnChar '=' pair with
    | [] => (String.mk (urlDecodeChars pair), "")
    | k :: rest =>
      (String.mk (urlDecodeChars k),
       String.mk (urlDecodeChars (List.intercalate ['='] rest)))

/-- Model of `new URLSearchParams(body).get('email') || ''`: the first
    `email` entry's decoded value, or the empty string. -/
def formEmail (body : String) : String :=
  match (parseFormPairs body).lookup "email" with
  | some v => v
  | none => ""

/-- Parse the comma-separated `"key": "value"` members of a JSON object with
    plain string values; the fuel is at least the input length. -/
def parseObjItems : Nat → List Char → List (String × String) →
    Option (List (String × String) × List Char)
  | 0, _, _ => none
  | fuel + 1, cs, acc =>
    match parseJStr (skipWs cs) with
    | none => none
    | some (k, rest) =>
      match skipWs rest with
      | ':' :: rest2 =>
        match parseJStr (skipWs rest2) with
        | none => none
        | some (v, rest3) =>
          match skipWs rest3 with
          | ',' :: rest4 => parseObjItems fuel rest4 (acc ++ [(k, v)])
          | restF => some (acc ++ [(k, v)], restF)
      | _ => none

/-- Model of `JSON.parse` restricted to flat objects with plain string
    values — the shape a subscribe form posts.  `none` models the
    `SyntaxError` that `JSON.parse` throws on malformed input. -/
def parseJsonObj (s : String) : Option (List (String × String)) :=
  match skipWs s.data with
  | c :: cs1 =>
    if c = lbraceChar then
      match skipWs cs1 with
      | c2 :: cs2 =>
        if c2 = rbraceChar then (if skipWs cs2 = [] then some [] else none)
        else
          match parseObjItems (s.data.length + 1) (c2 :: cs2) [] with
          | some (kvs, rest) =>
            match rest with
            | c3 :: cs3 => if c3 = rbraceChar ∧ skipWs cs3 = [] then some kvs else none
            | [] => none
          | none => none
      | [] => none
    else none
  | [] => none

/-- Field access `obj.email` on a parsed JSON object: JSON keeps the last
    duplicate key, and an absent field defaults to the empty string as
    `(body.email || "")` does. -/
def jsonField (kvs : List (String × String)) (key : String) : String :=
  match kvs.reverse.lookup key with
  | some v => v
  | none => ""

/-- Body defaulting `JSON.parse(event.body || "{}")` performs before parsing. -/
def defaultedJsonBody (body : Option String) : String :=
  match body with
  | none => "\x7b\x7d"
  | some b => if b = "" then "\x7b\x7d" else b

/-- First `n` characters of a string, as `String.prototype.slice(0, n)`. -/
def strTake (s : String) (n : Nat) : String := String.mk (s.data.take n)

/-- Incoming request as the Netlify handler sees it: the method, the
    `content-type` header (empty when absent, as `|| ""` arranges) and the
    optional raw body. -/
structure SubEvent where
  httpMethod : String
  contentType : String
  body : Option String
deriving DecidableEq, Repr

/-- Response body of the subscribe handler, abstracted to its two shapes:
    plain text, or the serialised JSON object with its `ok` flag and
    optional `error` string. -/
inductive SubRespBody where
  | text (s : String)
  | json (ok : Bool) (error : Option String)
deriving DecidableEq, Repr

/-- Status object the subscribe handler returns. -/
structure SubResponse where
  statusCode : Nat
  body : SubRespBody
deriving DecidableEq, Repr

/-- Email extraction inside the handler's `try` block: the form-encoded
    branch reads the `email` parameter, the JSON branch parses the defaulted
    body — where `JSON.parse` may throw, modelled as `Except.error`. -/
def extractEmail (ev : SubEvent) : Except String String :=
  if strIncludes ev.contentType "application/x-www-form-urlencoded" then
    Except.ok (jsTrim (formEmail (ev.body.getD "")))
  else
    match parseJsonObj (defaultedJsonBody ev.body) with
    | some kvs => Except.ok (jsTrim (jsonField kvs "email"))
    | none => Except.error "Unexpected token in JSON"

/-- Body of the handler's `try` block: extract the email, reject an empty
    one with 400, forward to the upstream subscribe endpoint (modelled as a
    function from the email to a status/body pair or a network error), and
    map a 2xx to 200/`ok:true` and anything else to 400/`ok:false`. -/
def handlerTryBlock (upstream : String → Except String (Nat × String))
    (ev : SubEvent) : Except String SubResponse :=
  match extractEmail ev with
  | Except.error m => Except.error m
  | Except.ok email =>
    if email = "" then
      Except.ok { statusCode := 400, body := SubRespBody.text "Missing email" }
    else
      match upstream email with
      | Except.error m => Except.error m
      | Except.ok res =>
        if 200 ≤ res.1 ∧ res.1 ≤ 299 then
          Except.ok { statusCode := 200, body := SubRespBody.json true none }
        else
          Except.ok
            { statusCode := 400,
              body := SubRespBody.json false (some (strTake res.2 300)) }

/-- Model of the Netlify subscribe handler: non-POST methods are rejected
    with 405 before the `try` block, and every exception inside it is caught
    and mapped to a 500 response carrying `e.message || "Server error"`. -/
def handler (upstream : String → Except String (Nat × String)) (ev : SubEvent) : SubResponse :=
  if ev.httpMethod ≠ "POST" then { statusCode := 405, body := SubRespBody.text "Method Not Allowed" }
  else
    match handlerTryBlock upstream ev with
    | Except.ok r => r
    | Except.error m =>
      { statusCode := 500,
        body := SubRespBody.json false (some (if m = "" then "Server error" else m)) }

/-- C10: the subscribe handler always returns a status object — 405 for a
    non-POST method; 400 for a missing or empty (after trimming) email,
    whether form-encoded or JSON; 200 with `ok:true` on an upstream 2xx; 400
    with `ok:false` on any other upstream status; 500 with `ok:false` when
    anything inside the `try` block throws; and nothing else. -/
theorem subscribeHandler_spec (upstream : String → Except String (Nat × String))
    (ev : SubEvent) :
    (ev.httpMethod ≠ "POST" →
      handler upstream ev = ⟨405, SubRespBody.text "Method Not Allowed"⟩)
  ∧ (ev.httpMethod = "POST" →
      strIncludes ev.contentType "application/x-www-form-urlencoded" = true →
      jsTrim (formEmail (ev.body.getD "")) = "" →
      handler upstream ev = ⟨400, SubRespBody.text "Missing email"⟩)
  ∧ (∀ kvs, ev.httpMethod = "POST" →
      strIncludes ev.contentType "application/x-www-form-urlencoded" = false →
      parseJsonObj (defaultedJsonBody ev.body) = some kvs →
      jsTrim (jsonField kvs "email") = "" →
      handler upstream ev = ⟨400, SubRespBody.text "Missing email"⟩)
  ∧ (∀ e st t, ev.httpMethod = "POST" → extractEmail ev = Except.ok e → e ≠ "" →
      upstream e = Except.ok (st, t) → 200 ≤ st → st ≤ 299 →
      handler upstream ev = ⟨200, SubRespBody.json true none⟩)
  ∧ (∀ e st t, ev.httpMethod = "POST" → extractEmail ev = Except.ok e → e ≠ "" →
      upstream e = Except.ok (st, t) → ¬(200 ≤ st ∧ st ≤ 299) →
      handler upstream ev = ⟨400, SubRespBody.json false (some (strTake t 300))⟩)
  ∧ (∀ m, ev.httpMethod = "POST" → extractEmail ev = Except.error m →
      handler upstream ev
        = ⟨500, SubRespBody.json false (some (if m = "" then "Server error" else m))⟩)
  ∧ (∀ e m, ev.httpMethod = "POST" → extractEmail ev = Except.ok e → e ≠ "" →
      upstream e = Except.error m →
      handler upstream ev
        = ⟨500, SubRespBody.json false (some (if m = "" then "Server error" else m))⟩)
  ∧ ((handler upstream ev).statusCode = 200 ∨ (handler upstream ev).statusCode = 400
      ∨ (handler upstream ev).statusCode = 405 ∨ (handler upstream ev).statusCode = 500) := by
  refine ⟨?_, ?_, ?_, ?_, ?_, ?_, ?_, ?_⟩
  · intro h
    simp [handler, h]
  · intro hm hct he
    have hex : extractEmail ev = Except.ok "" := by simp [extractEmail, hct, he]
    simp [handler, hm, handlerTryBlock, hex]
  · intro kvs hm hct hp he
    have hex : extractEmail ev = Except.ok "" := by simp [extractEmail, hct, hp, he]
    simp [handler, hm, handlerTryBlock, hex]
  · intro e st t hm hex hne hup h1 h2
    simp [handler, hm, handlerTryBlock, hex, hne, hup, h1, h2]
  · intro e st t hm hex hne hup hrange
    simp [handler, hm, handlerTryBlock, hex, hne, hup, hrange]
  · intro m hm hex
    simp [handler, hm, handlerTryBlock, hex]
  · intro e m hm hex hne hup
    simp [handler, hm, handlerTryBlock, hex, hne, hup]
  · by_cases hm : ev.httpMethod = "POST"
    · cases hex : extractEmail ev with
      | error msg => simp [handler, hm, handlerTryBlock, hex]
      | ok e =>
        by_cases hne : e = ""
        · subst hne; simp [handler, hm, handlerTryBlock, hex]
        · cases hup : upstream e with
          | error msg => simp [handler, hm, handlerTryBlock, hex, hne, hup]
          | ok res =>
            by_cases hrange : 200 ≤ res.1 ∧ res.1 ≤ 299
            · simp [handler, hm, handlerTryBlock, hex, hne, hup, hrange]
            · simp [handler, hm, handlerTryBlock, hex, hne, hup, hrange]
    · simp [handler, hm]

/-- Upstream stub for the C10 witness: every email subscribes successfully. -/
def stubUpstream : String → Except String (Nat × String) := fun _ => Except.ok (200, "ok")

/-- GET request for the C10 witness. -/
def evGet : SubEvent := { httpMethod := "GET", contentType := "", body := none }

/-- Form-encoded POST request for the C10 witness, with a percent-encoded
    email address. -/
def evPost : SubEvent :=
  { httpMethod := "POST", contentType := "application/x-www-form-urlencoded",
    body := some "email=a%40b.com" }

/-- Witness for C10: the stubbed upstream accepts the decoded email `a@b.com`
    and the handler reports success, while a GET is rejected with 405. -/
theorem subscribeHandler_spec_witness :
    handler stubUpstream evGet = ⟨405, SubRespBody.text "Method Not Allowed"⟩
  ∧ handler stubUpstream evPost = ⟨200, SubRespBody.json true none⟩ := by
  constructor
  · exact (subscribeHandler_spec stubUpstream evGet).1 (by decide)
  · exact (subscribeHandler_spec stubUpstream evPost).2.2.2.1 "a@b.com" 200 "ok"
      (by decide) rfl (by decide) rfl (by decide) (by decide)
